import Mathlib

set_option maxRecDepth 100000
set_option maxHeartbeats 2000000

/-!
Verification of the yogurt_MKR firmware core against its specification.

The development shallowly embeds the two core subsystems:
* the temperature acquisition pipeline of `src/adc.c` (calibration table,
  binary search with linear interpolation, exponential moving average), and
* the interaction state machine of `src/menu.c` (`feedMenu`/`refreshMenu`).

Machine integers are modelled as `Nat` with explicit `% 2^w` where the C
types can overflow (`unsigned long` accumulator, `unsigned int` timer and
filtered value).  Fields of collaborator modules whose sources are not in
the repository snapshot (`params.c`, `relay.c`, `timer.c`, `menu.h`
constants) are modelled from the spec, as marked in their doc comments.
-/

namespace YogurtMKR

/-! ## Temperature acquisition pipeline (src/adc.c) -/

/-- `ADC_AVERAGING_BITS` from src/adc.c line 30: 2^4 = 16 samples EMA weight. -/
abbrev ADC_AVERAGING_BITS : Nat := 4

/-- `ADC_RAW_TABLE_BASE_TEMP` from src/adc.c line 32 (tenths of a degree). -/
abbrev ADC_RAW_TABLE_BASE_TEMP : Int := -520

/-- The calibration table `rawAdc` of src/adc.c lines 38-56, transcribed
entry for entry (165 entries, rows of ten). -/
def rawAdc : List Nat := [
  974, 971, 967, 964, 960, 956, 953, 948, 944, 940,
  935, 930, 925, 920, 914, 909, 903, 897, 891, 884,
  877, 871, 864, 856, 849, 841, 833, 825, 817, 809,
  800, 791, 782, 773, 764, 754, 745, 735, 725, 715,
  705, 695, 685, 675, 664, 654, 644, 633, 623, 612,
  601, 591, 580, 570, 559, 549, 538, 528, 518, 507,
  497, 487, 477, 467, 457, 448, 438, 429, 419, 410,
  401, 392, 383, 375, 366, 358, 349, 341, 333, 326,
  318, 310, 303, 296, 289, 282, 275, 269, 262, 256,
  250, 244, 238, 232, 226, 221, 215, 210, 205, 200,
  195, 191, 186, 181, 177, 173, 169, 165, 161, 157,
  153, 149, 146, 142, 139, 136, 132, 129, 126, 123,
  120, 117, 115, 112, 109, 107, 104, 102, 100, 97,
  95, 93, 91, 89, 87, 85, 83, 81, 79, 78,
  76, 74, 73, 71, 69, 68, 67, 65, 64, 62,
  61, 60, 58, 57, 56, 55, 54, 53, 52, 51,
  49, 48, 47, 47, 46]

/-- `ADC_RAW_TABLE_SIZE = sizeof(rawAdc)/sizeof(rawAdc[0])` (src/adc.c line 31). -/
def ADC_RAW_TABLE_SIZE : Nat := rawAdc.length

/-- Total model of the C array read `rawAdc[i]`.  In C an access at `i ≥ 165`
is out of bounds (undefined behavior); the model defaults such reads to `0`
and the theorems record where the C code performs them. -/
def tbl (i : Nat) : Nat := rawAdc.getD i 0

/-- Verification helper (not source code): one boolean pass checking that a
list never increases from one element to the next. -/
def chainLeB : List Nat → Bool
  | a :: b :: rest => Nat.ble b a && chainLeB (b :: rest)
  | _ => true

/-- Verification helper (not source code): one boolean pass checking that a
list strictly decreases at every adjacent pair except the one starting at
index `e`; `k` is the index of the current head. -/
def chainLtExceptB (e : Nat) : Nat → List Nat → Bool
  | k, a :: b :: rest => (Nat.blt b a || decide (k = e)) && chainLtExceptB e (k + 1) (b :: rest)
  | _, _ => true

/-- The binary-search loop of `getTemperature` (src/adc.c lines 117-125),
written with explicit fuel so that it is structurally recursive.  The loop
halves `r - l` each iteration, so fuel `ADC_RAW_TABLE_SIZE` is far more
than the at most 8 iterations the C loop performs from `(0, 165)`. -/
def bsearchAux : Nat → Nat → Nat → Nat → Nat × Nat
  | 0, _, l, r => (l, r)
  | fuel + 1, val, l, r =>
    if r - l > 1 then
      let midId := (l + r) / 2
      if val > tbl midId then bsearchAux fuel val l midId
      else bsearchAux fuel val midId r
    else (l, r)

/-- Binary search exactly as started by `getTemperature`:
`leftBound = 0`, `rightBound = ADC_RAW_TABLE_SIZE` (src/adc.c lines 113-114). -/
def bsearch (val : Nat) : Nat × Nat := bsearchAux ADC_RAW_TABLE_SIZE val 0 ADC_RAW_TABLE_SIZE

/-- The post-search part of `getTemperature` (src/adc.c lines 128-133):
either the exact hit `leftBound * 10`, or the linear interpolation
`rightBound * 10 - ((val - rawAdc[rightBound]) * 10) / (rawAdc[leftBound] - rawAdc[rightBound])`.
All arithmetic is on unsigned values that stay small on the paths the
theorems use, so plain `Nat` operations model it. -/
def adcLookup (val : Nat) : Nat :=
  let lr := bsearch val
  if val ≥ tbl lr.1 then lr.1 * 10
  else lr.2 * 10 - (val - tbl lr.2) * 10 / (tbl lr.1 - tbl lr.2)

/-- The table indices read by the post-search part of `getTemperature`:
`rawAdc[leftBound]` on line 128, and additionally `rawAdc[rightBound]`
(lines 131-132) when the interpolation branch is taken. -/
def interpIndices (val : Nat) : List Nat :=
  let lr := bsearch val
  if val ≥ tbl lr.1 then [lr.1] else [lr.1, lr.2]

/-- `getTemperature` (src/adc.c lines 110-137).  `averaged` is the 32-bit
accumulator; `val = averaged >> 4` truncated to `unsigned int` (16 bits);
`corr` is the value of `getParamById(PARAM_TEMPERATURE_CORRECTION)`,
supplied by the parameter store and added at line 136. -/
def getTemperature (averaged : Nat) (corr : Int) : Int :=
  let val := (averaged / 2 ^ ADC_AVERAGING_BITS) % 65536
  ADC_RAW_TABLE_BASE_TEMP + (adcLookup val : Int) + corr

/-- `2^32`, the modulus of the `unsigned long` accumulator `averaged`. -/
abbrev U32 : Nat := 4294967296

/-- One `ADC1_EOC_handler` filter update (src/adc.c lines 150-155) applied to
the accumulator, with `result` the fresh 10-bit raw sample: seed
`result << 4` when the accumulator is zero, else
`averaged += result - (averaged >> 4)` in `unsigned long` arithmetic. -/
def eocStep (averaged : Nat) (result : Nat) : Nat :=
  if averaged = 0 then (result * 2 ^ ADC_AVERAGING_BITS) % U32
  else (averaged + ((result + U32 - averaged / 2 ^ ADC_AVERAGING_BITS) % U32)) % U32

/-- `getAdcAveraged` (src/adc.c lines 101-104): `averaged >> 4` truncated to
`unsigned int`. -/
def getAdcAveraged (averaged : Nat) : Nat :=
  (averaged / 2 ^ ADC_AVERAGING_BITS) % 65536

/-! ## Interaction state machine (src/menu.c)

Modelled from the spec: `menu.h` is not under src/, so the numeric values of
the four `MENU_*` states and seven `MENU_EVENT_*` codes are unknown; the spec
(§4.2) fixes only which states and events exist.  They are modelled as
distinct small `Nat` constants; `feedMenu` depends only on their
distinctness. -/

abbrev MENU_ROOT : Nat := 0
abbrev MENU_SELECT_PARAM : Nat := 1
abbrev MENU_CHANGE_PARAM : Nat := 2
abbrev MENU_SET_TIMER : Nat := 3

abbrev MENU_EVENT_PUSH_BUTTON1 : Nat := 0
abbrev MENU_EVENT_RELEASE_BUTTON1 : Nat := 1
abbrev MENU_EVENT_PUSH_BUTTON2 : Nat := 2
abbrev MENU_EVENT_RELEASE_BUTTON2 : Nat := 3
abbrev MENU_EVENT_PUSH_BUTTON3 : Nat := 4
abbrev MENU_EVENT_RELEASE_BUTTON3 : Nat := 5
abbrev MENU_EVENT_CHECK_TIMER : Nat := 6

/-- Timing constants of src/menu.c lines 30-33. -/
abbrev MENU_1_SEC_PASSED : Nat := 32
abbrev MENU_3_SEC_PASSED : Nat := MENU_1_SEC_PASSED * 3
abbrev MENU_5_SEC_PASSED : Nat := MENU_1_SEC_PASSED * 5
abbrev MENU_AUTOINC_DELAY : Nat := MENU_1_SEC_PASSED / 8

/-- Modelled from the spec: `params.h` is not under src/; the parameter id of
the fermentation-time parameter is an unknown small constant.  Its concrete
value is irrelevant to `feedMenu`, which only ever compares ids it set
itself. -/
abbrev PARAM_FERMENTATION_TIME : Nat := 6

/-- The state the menu automaton can read and mutate: its own statics
(`menuDisplay`, `menuState`, `timer` of src/menu.c lines 36-40) together with
the state of the collaborator modules it calls.  The collaborator fields are
modelled from the spec (§6), since `params.c`, `relay.c` and `timer.c` are
not under src/: `paramId`/`params` for the parameter store (`setParamId`,
`incParamId`, `decParamId`, `incParam`, `decParam`), `storeCount` counting
`storeParams()` calls, `relayEnabled` for `enableRelay`/`isRelayEnabled`,
`fTimer` for `startFTimer`/`stopFTimer`/`isFTimer`, and `displayOff` for
`setDisplayOff`. -/
structure MState where
  menuState : Nat
  menuDisplay : Nat
  timer : Nat
  paramId : Nat
  params : Nat → Int
  relayEnabled : Bool
  fTimer : Bool
  displayOff : Bool
  storeCount : Nat

/-- The read-only collaborator inputs of one `feedMenu` call: the live button
levels (`getButton1..3` of src/buttons.c) and `getUptimeTicks()`. -/
structure Env where
  button1 : Bool
  button2 : Bool
  button3 : Bool
  uptimeTicks : Nat

/-- Modelled from the spec: `incParam`/`decParam` of the missing params store
add `d` to the value of the currently selected parameter (§6: increment /
decrement-value-of-current-parameter; range clamping is store-defined and
left abstract). -/
def updParam (p : Nat → Int) (id : Nat) (d : Int) : Nat → Int :=
  fun j => if j = id then p id + d else p j

/-- The `menuState == MENU_ROOT` switch of `feedMenu` (src/menu.c lines
82-131).  Cases in source order; any event not named falls to `default`. -/
def feedRoot (env : Env) (event : Nat) (s : MState) : MState :=
  if event = MENU_EVENT_PUSH_BUTTON1 then
    { s with timer := 0, menuDisplay := MENU_SET_TIMER }
  else if event = MENU_EVENT_RELEASE_BUTTON1 then
    if s.timer < MENU_5_SEC_PASSED then { s with menuState := MENU_SET_TIMER, timer := 0 }
    else { s with timer := 0 }
  else if event = MENU_EVENT_CHECK_TIMER then
    if s.timer > MENU_3_SEC_PASSED then
      if env.button1 then
        -- setParamId(0); menuState = menuDisplay = MENU_SELECT_PARAM
        { s with timer := 0, paramId := 0,
                 menuState := MENU_SELECT_PARAM, menuDisplay := MENU_SELECT_PARAM }
      else if env.button2 then
        -- isRelayEnabled() && !isFTimer() ? enableRelay(false) : enableRelay(true)
        if s.relayEnabled && !s.fTimer then { s with timer := 0, relayEnabled := false }
        else { s with timer := 0, relayEnabled := true }
      else if env.button3 then
        -- isFTimer() ? (stopFTimer; enableRelay(false)) : (startFTimer; enableRelay(true))
        if s.fTimer then { s with timer := 0, fTimer := false, relayEnabled := false }
        else { s with timer := 0, fTimer := true, relayEnabled := true }
      else { s with timer := 0 }
    else s
  else
    if s.timer > MENU_5_SEC_PASSED then
      { s with timer := 0, menuState := MENU_ROOT, menuDisplay := MENU_ROOT }
    else s

/-- The hold-to-repeat block of the SELECT_PARAM `CHECK_TIMER` case
(src/menu.c lines 159-167): above `1s + autoinc delay`, increment or
decrement the parameter id per the held button and re-arm the timer at the
1-second mark. -/
def selectAutoInc (env : Env) (s : MState) : MState :=
  if s.timer > MENU_1_SEC_PASSED + MENU_AUTOINC_DELAY then
    if env.button2 then { s with paramId := s.paramId + 1, timer := MENU_1_SEC_PASSED }
    else if env.button3 then { s with paramId := s.paramId - 1, timer := MENU_1_SEC_PASSED }
    else s
  else s

/-- The `menuState == MENU_SELECT_PARAM` switch of `feedMenu` (src/menu.c
lines 133-180), including the intentional fall-throughs of the push cases
into the following release cases (both reset `timer`). -/
def feedSelect (env : Env) (event : Nat) (s : MState) : MState :=
  if event = MENU_EVENT_PUSH_BUTTON1 then
    { s with menuState := MENU_CHANGE_PARAM, menuDisplay := MENU_CHANGE_PARAM, timer := 0 }
  else if event = MENU_EVENT_RELEASE_BUTTON1 then { s with timer := 0 }
  else if event = MENU_EVENT_PUSH_BUTTON2 then
    -- incParamId(); modelled from the spec as id + 1 (wrap is store-defined)
    { s with paramId := s.paramId + 1, timer := 0 }
  else if event = MENU_EVENT_RELEASE_BUTTON2 then { s with timer := 0 }
  else if event = MENU_EVENT_PUSH_BUTTON3 then
    -- decParamId(); modelled from the spec as id - 1 (clamp is store-defined)
    { s with paramId := s.paramId - 1, timer := 0 }
  else if event = MENU_EVENT_RELEASE_BUTTON3 then { s with timer := 0 }
  else if event = MENU_EVENT_CHECK_TIMER then
    let s1 := selectAutoInc env s
    if s1.timer > MENU_5_SEC_PASSED then
      -- timer = 0; setParamId(0); storeParams(); menuState = menuDisplay = MENU_ROOT
      { s1 with timer := 0, paramId := 0, storeCount := s1.storeCount + 1,
                menuState := MENU_ROOT, menuDisplay := MENU_ROOT }
    else s1
  else s

/-- The hold-to-repeat block of the CHANGE_PARAM `CHECK_TIMER` case
(src/menu.c lines 208-216): like `selectAutoInc` but incrementing or
decrementing the value of the currently selected parameter. -/
def changeAutoInc (env : Env) (s : MState) : MState :=
  if s.timer > MENU_1_SEC_PASSED + MENU_AUTOINC_DELAY then
    if env.button2 then
      { s with params := updParam s.params s.paramId 1, timer := MENU_1_SEC_PASSED }
    else if env.button3 then
      { s with params := updParam s.params s.paramId (-1), timer := MENU_1_SEC_PASSED }
    else s
  else s

/-- The `menuState == MENU_CHANGE_PARAM` switch of `feedMenu` (src/menu.c
lines 182-235).  The `break` of the 3-second button-1 branch (line 222)
skips the 5-second timeout check, hence the `else if`. -/
def feedChange (env : Env) (event : Nat) (s : MState) : MState :=
  if event = MENU_EVENT_PUSH_BUTTON1 then
    { s with menuState := MENU_SELECT_PARAM, menuDisplay := MENU_SELECT_PARAM, timer := 0 }
  else if event = MENU_EVENT_RELEASE_BUTTON1 then { s with timer := 0 }
  else if event = MENU_EVENT_PUSH_BUTTON2 then
    { s with params := updParam s.params s.paramId 1, timer := 0 }
  else if event = MENU_EVENT_RELEASE_BUTTON2 then { s with timer := 0 }
  else if event = MENU_EVENT_PUSH_BUTTON3 then
    { s with params := updParam s.params s.paramId (-1), timer := 0 }
  else if event = MENU_EVENT_RELEASE_BUTTON3 then { s with timer := 0 }
  else if event = MENU_EVENT_CHECK_TIMER then
    let s1 := changeAutoInc env s
    if env.button1 = true ∧ s1.timer > MENU_3_SEC_PASSED then
      { s1 with timer := 0, menuState := MENU_SELECT_PARAM, menuDisplay := MENU_SELECT_PARAM }
    else if s1.timer > MENU_5_SEC_PASSED then
      { s1 with timer := 0, storeCount := s1.storeCount + 1,
                menuState := MENU_ROOT, menuDisplay := MENU_ROOT }
    else s1
  else s

/-- The hold-to-repeat block of the SET_TIMER `CHECK_TIMER` case (src/menu.c
lines 280-290): above `1s + autoinc delay` the fermentation-time parameter
is selected unconditionally (line 281), then incremented or decremented per
the held button with the timer re-armed at the 1-second mark. -/
def setTimerAutoInc (env : Env) (s : MState) : MState :=
  if s.timer > MENU_1_SEC_PASSED + MENU_AUTOINC_DELAY then
    if env.button2 then
      { s with paramId := PARAM_FERMENTATION_TIME,
               params := updParam s.params PARAM_FERMENTATION_TIME 1,
               timer := MENU_1_SEC_PASSED }
    else if env.button3 then
      { s with paramId := PARAM_FERMENTATION_TIME,
               params := updParam s.params PARAM_FERMENTATION_TIME (-1),
               timer := MENU_1_SEC_PASSED }
    else { s with paramId := PARAM_FERMENTATION_TIME }
  else s

/-- The `menuState == MENU_SET_TIMER` switch of `feedMenu` (src/menu.c lines
237-312).  `blink` is `(unsigned char)getUptimeTicks() & 0x80`, i.e. bit 7
of the uptime tick count. -/
def feedSetTimer (env : Env) (event : Nat) (s : MState) : MState :=
  if event = MENU_EVENT_PUSH_BUTTON1 then
    { s with timer := 0, menuDisplay := MENU_ROOT, displayOff := false }
  else if event = MENU_EVENT_RELEASE_BUTTON1 then
    if s.timer < MENU_5_SEC_PASSED then
      -- storeParams(); menuState = MENU_ROOT; setDisplayOff(false); timer = 0
      { s with storeCount := s.storeCount + 1, menuState := MENU_ROOT,
               displayOff := false, timer := 0 }
    else { s with timer := 0 }
  else if event = MENU_EVENT_PUSH_BUTTON2 then
    -- setParamId(PARAM_FERMENTATION_TIME); incParam(); timer = 0
    { s with paramId := PARAM_FERMENTATION_TIME,
             params := updParam s.params PARAM_FERMENTATION_TIME 1, timer := 0 }
  else if event = MENU_EVENT_RELEASE_BUTTON2 then { s with timer := 0 }
  else if event = MENU_EVENT_PUSH_BUTTON3 then
    { s with paramId := PARAM_FERMENTATION_TIME,
             params := updParam s.params PARAM_FERMENTATION_TIME (-1), timer := 0 }
  else if event = MENU_EVENT_RELEASE_BUTTON3 then { s with timer := 0 }
  else if event = MENU_EVENT_CHECK_TIMER then
    let blink : Bool :=
      if env.button2 || env.button3 then false
      else decide (128 ≤ env.uptimeTicks % 256)
    let s2 := { setTimerAutoInc env s with displayOff := blink }
    if s2.timer > MENU_5_SEC_PASSED then
      if env.button1 then
        { s2 with timer := 0, menuState := MENU_SELECT_PARAM,
                  menuDisplay := MENU_SELECT_PARAM, displayOff := false }
      else
        { s2 with timer := 0, storeCount := s2.storeCount + 1,
                  menuState := MENU_ROOT, menuDisplay := MENU_ROOT, displayOff := false }
    else s2
  else s

/-- `feedMenu` (src/menu.c lines 77-314): dispatch on `menuState` over the
four state blocks; an unrecognized `menuState` falls through the whole
if/else-if chain and changes nothing. -/
def feedMenu (env : Env) (event : Nat) (s : MState) : MState :=
  if s.menuState = MENU_ROOT then feedRoot env event s
  else if s.menuState = MENU_SELECT_PARAM then feedSelect env event s
  else if s.menuState = MENU_CHANGE_PARAM then feedChange env event s
  else if s.menuState = MENU_SET_TIMER then feedSetTimer env event s
  else s

/-- `refreshMenu` (src/menu.c lines 322-326): `timer++` on the 16-bit
`unsigned int` counter, then `feedMenu(MENU_EVENT_CHECK_TIMER)`. -/
def refreshMenu (env : Env) (s : MState) : MState :=
  feedMenu env MENU_EVENT_CHECK_TIMER { s with timer := (s.timer + 1) % 65536 }

/-- `initMenu` (src/menu.c lines 47-51): `timer = 0`,
`menuState = menuDisplay = MENU_ROOT`; the collaborator state is whatever it
was. -/
def initMenu (s : MState) : MState :=
  { s with timer := 0, menuState := MENU_ROOT, menuDisplay := MENU_ROOT }

/-- The menu states reachable through the module interface: start at
`initMenu` and apply any interleaving of `feedMenu` (any event byte, any
collaborator responses) and `refreshMenu` ticks. -/
inductive Reach : MState → Prop where
  | init : ∀ s, Reach (initMenu s)
  | feed : ∀ env event s, Reach s → Reach (feedMenu env event s)
  | tick : ∀ env s, Reach s → Reach (refreshMenu env s)

/-- The `menuState`/`menuDisplay` coupling invariant of spec §4.2: equal, or
the ROOT preview of SET_TIMER, or its converse after a preview commit. -/
def stateDisplayOK (s : MState) : Prop :=
  s.menuState = s.menuDisplay ∨
  (s.menuState = MENU_ROOT ∧ s.menuDisplay = MENU_SET_TIMER) ∨
  (s.menuState = MENU_SET_TIMER ∧ s.menuDisplay = MENU_ROOT)

/-- Both state variables stay in the four defined menu states. -/
def menuStatesBounded (s : MState) : Prop :=
  (s.menuState = MENU_ROOT ∨ s.menuState = MENU_SELECT_PARAM ∨
   s.menuState = MENU_CHANGE_PARAM ∨ s.menuState = MENU_SET_TIMER) ∧
  (s.menuDisplay = MENU_ROOT ∨ s.menuDisplay = MENU_SELECT_PARAM ∨
   s.menuDisplay = MENU_CHANGE_PARAM ∨ s.menuDisplay = MENU_SET_TIMER)

/-- A baseline state used to build concrete scenarios: all collaborator state
cleared. -/
def mstate0 : MState :=
  ⟨MENU_ROOT, MENU_ROOT, 0, 0, fun _ => 0, false, false, false, 0⟩

/-- Environment of the C7 scenario: button 1 held, others released. -/
def envHold1 : Env := ⟨true, false, false, 0⟩

/-- Environment of the C8 scenario: button 2 held, others released. -/
def envHold2 : Env := ⟨false, true, false, 0⟩

/-- C8 scenario start: the machine sits in SET_TIMER. -/
def c8start : MState :=
  { mstate0 with menuState := MENU_SET_TIMER, menuDisplay := MENU_SET_TIMER }

/-- C8 scenario: the PUSH_BUTTON2 that begins the button-2 hold. -/
def c8pushed : MState := feedMenu envHold2 MENU_EVENT_PUSH_BUTTON2 c8start

/-- C7 scenario: fresh `initMenu`, then the PUSH_BUTTON1 edge that begins the
button-1 hold (it zeroes the timer and previews SET_TIMER on the display). -/
def c7pushed : MState := feedMenu envHold1 MENU_EVENT_PUSH_BUTTON1 (initMenu mstate0)

/-! ## Theorems about the acquisition pipeline -/

/-- C2 counterexample: entries 162 and 163 of `rawAdc` are both 47, so the
table is not strictly monotonically decreasing. -/
theorem rawAdc_not_strictly_decreasing :
    tbl 162 = 47 ∧ tbl 163 = 47 ∧ ¬ tbl 163 < tbl 162 := by decide

/-- A passing `chainLeB` scan means every adjacent pair is non-increasing. -/
theorem chainLeB_correct : ∀ (l : List Nat), chainLeB l = true →
    ∀ i : Nat, i + 1 < l.length → l.getD (i + 1) 0 ≤ l.getD i 0 := by
  intro l
  induction l with
  | nil =>
    intro _ i hi
    simp at hi
  | cons a tail ih =>
    intro h i hi
    cases tail with
    | nil =>
      simp at hi
    | cons b rest =>
      have h2 : Nat.ble b a = true ∧ chainLeB (b :: rest) = true := by
        simpa [chainLeB, Bool.and_eq_true] using h
      cases i with
      | zero => simpa using Nat.le_of_ble_eq_true h2.1
      | succ i =>
        have hlen : i + 1 < (b :: rest).length := by
          simp at hi ⊢
          omega
        simpa using ih h2.2 i hlen

/-- A passing `chainLtExceptB` scan means every adjacent pair other than the
excepted one is strictly decreasing. -/
theorem chainLtExceptB_correct : ∀ (l : List Nat) (k e : Nat),
    chainLtExceptB e k l = true →
    ∀ i : Nat, i + 1 < l.length → k + i ≠ e → l.getD (i + 1) 0 < l.getD i 0 := by
  intro l
  induction l with
  | nil =>
    intro _ _ _ i hi
    simp at hi
  | cons a tail ih =>
    intro k e h i hi hne
    cases tail with
    | nil =>
      simp at hi
    | cons b rest =>
      have h2 : (Nat.blt b a || decide (k = e)) = true ∧
          chainLtExceptB e (k + 1) (b :: rest) = true := by
        simpa [chainLtExceptB, Bool.and_eq_true] using h
      cases i with
      | zero =>
        have h3 : b < a ∨ k = e := by simpa using h2.1
        rcases h3 with h3 | h3
        · simpa using h3
        · exact absurd h3 (by omega)
      | succ i =>
        have hlen : i + 1 < (b :: rest).length := by
          simp at hi ⊢
          omega
        simpa using ih (k + 1) e h2.2 i hlen (by omega)

/-- Adjacent entries of the table never increase (one boolean scan of the
table plus the scan-correctness bridge). -/
theorem tbl_adj_mono : ∀ i : Nat, i < 164 → tbl (i + 1) ≤ tbl i := by
  intro i hi
  have hlen : rawAdc.length = 165 := rfl
  exact chainLeB_correct rawAdc (by rfl) i (by omega)

/-- Adjacent entries decrease strictly everywhere except at the duplicated
pair 162/163 (one boolean scan plus the scan-correctness bridge). -/
theorem tbl_adj_strict : ∀ i : Nat, i < 164 → i ≠ 162 → tbl (i + 1) < tbl i := by
  intro i hi hne
  have hlen : rawAdc.length = 165 := rfl
  exact chainLtExceptB_correct rawAdc 0 162 (by rfl) i (by omega) (by omega)

/-- C2 (amended): `rawAdc` has exactly 165 entries and is monotonically
non-increasing; every adjacent pair decreases strictly except the pair at
indices 162/163, where both entries are 47. -/
theorem rawAdc_length_and_monotone :
    rawAdc.length = 165 ∧ (∀ i : Nat, i < 164 → tbl (i + 1) ≤ tbl i) ∧
    (∀ i : Nat, i < 164 → i ≠ 162 → tbl (i + 1) < tbl i) :=
  ⟨rfl, tbl_adj_mono, tbl_adj_strict⟩

/-- C2 witness: the amended theorem applied at concrete indices. -/
theorem rawAdc_length_and_monotone_witness : tbl 6 ≤ tbl 5 ∧ tbl 44 < tbl 43 :=
  ⟨rawAdc_length_and_monotone.2.1 5 (by decide),
   rawAdc_length_and_monotone.2.2 43 (by decide) (by decide)⟩

/-- Monotonicity over any distance, by chaining adjacent steps. -/
theorem tbl_mono_add : ∀ (d a : Nat), a + d ≤ 164 → tbl (a + d) ≤ tbl a := by
  intro d
  induction d with
  | zero => intro a _; exact Nat.le_refl _
  | succ d ih =>
    intro a h
    exact Nat.le_trans (tbl_adj_mono (a + d) (by omega)) (ih a (by omega))

/-- The table is non-increasing: a later entry is at most an earlier one. -/
theorem tbl_le_of_le (a b : Nat) (hab : a ≤ b) (hb : b ≤ 164) : tbl b ≤ tbl a := by
  have h := tbl_mono_add (b - a) a (by omega)
  have hba : a + (b - a) = b := by omega
  rwa [hba] at h

/-- The binary-search loop invariant: started on a window `[l, r)` whose left
edge never lies strictly below `val` (or is 0) and whose right edge lies
strictly below `val` (or is the one-past-the-end 165), with enough fuel, the
loop terminates on an adjacent pair inside the window satisfying the same
two edge conditions. -/
theorem bsearchAux_bracket : ∀ (fuel val l r : Nat), l < r → r ≤ 165 → r - l ≤ fuel →
    (l = 0 ∨ val ≤ tbl l) → (tbl r < val ∨ r = 165) →
    (bsearchAux fuel val l r).2 = (bsearchAux fuel val l r).1 + 1 ∧
    l ≤ (bsearchAux fuel val l r).1 ∧ (bsearchAux fuel val l r).2 ≤ r ∧
    ((bsearchAux fuel val l r).1 = 0 ∨ val ≤ tbl (bsearchAux fuel val l r).1) ∧
    (tbl (bsearchAux fuel val l r).2 < val ∨ (bsearchAux fuel val l r).2 = 165) := by
  intro fuel
  induction fuel with
  | zero =>
    intro val l r h1 _ h3 _ _
    exact absurd h3 (by omega)
  | succ fuel ih =>
    intro val l r h1 h2 h3 hA hB
    by_cases hgt : r - l > 1
    · have hmid1 : l < (l + r) / 2 := by omega
      have hmid2 : (l + r) / 2 < r := by omega
      by_cases hv : val > tbl ((l + r) / 2)
      · have hstep : bsearchAux (fuel + 1) val l r = bsearchAux fuel val l ((l + r) / 2) := by
          simp only [bsearchAux, if_pos hgt, if_pos hv]
        rw [hstep]
        have h := ih val l ((l + r) / 2) hmid1 (by omega) (by omega) hA (Or.inl hv)
        exact ⟨h.1, h.2.1, Nat.le_trans h.2.2.1 (by omega), h.2.2.2⟩
      · have hstep : bsearchAux (fuel + 1) val l r = bsearchAux fuel val ((l + r) / 2) r := by
          simp only [bsearchAux, if_pos hgt, if_neg hv]
        rw [hstep]
        have h := ih val ((l + r) / 2) r hmid2 h2 (by omega)
          (Or.inr (Nat.le_of_not_lt hv)) hB
        exact ⟨h.1, Nat.le_trans (by omega) h.2.1, h.2.2.1, h.2.2.2⟩
    · have hstep : bsearchAux (fuel + 1) val l r = (l, r) := by
        simp only [bsearchAux, if_neg hgt]
      rw [hstep]
      exact ⟨by omega, Nat.le_refl l, Nat.le_refl r, hA, hB⟩

/-- For a value caught strictly between entries `i+1` and `i` (weakly at the
top), `getTemperature`'s binary search resolves exactly to the bracketing
pair `(i, i+1)`. -/
theorem bsearch_pair (val i : Nat) (hi : i < 164) (h1 : tbl (i + 1) < val)
    (h2 : val ≤ tbl i) : (bsearch val).1 = i ∧ (bsearch val).2 = i + 1 := by
  have e : bsearch val = bsearchAux 165 val 0 165 := rfl
  have h := bsearchAux_bracket 165 val 0 165 (by omega) (by omega) (by omega)
    (Or.inl rfl) (Or.inr rfl)
  obtain ⟨hp, hl0, hr165, hA, hB⟩ := h
  rw [e]
  have hub : (bsearchAux 165 val 0 165).1 ≤ 164 := by omega
  have hle : (bsearchAux 165 val 0 165).1 ≤ i := by
    by_contra hgt
    push_neg at hgt
    rcases hA with h0 | hv
    · omega
    · have hm : tbl (bsearchAux 165 val 0 165).1 ≤ tbl (i + 1) :=
        tbl_le_of_le (i + 1) _ (by omega) hub
      omega
  have hge : i ≤ (bsearchAux 165 val 0 165).1 := by
    by_contra hlt
    push_neg at hlt
    rcases hB with hv | h165
    · have hm : tbl i ≤ tbl (bsearchAux 165 val 0 165).2 :=
        tbl_le_of_le _ i (by omega) (by omega)
      omega
    · omega
  exact ⟨by omega, by omega⟩

/-- Exact hit: on a strictly decreasing adjacent pair, looking up the value
of entry `i` lands on `leftBound = i` and takes the integral branch. -/
theorem adcLookup_exact (i : Nat) (hi : i < 164) (hstrict : tbl (i + 1) < tbl i) :
    adcLookup (tbl i) = i * 10 := by
  obtain ⟨hl, hr⟩ := bsearch_pair (tbl i) i hi hstrict (Nat.le_refl _)
  simp only [adcLookup, hl, hr]
  rw [if_pos (Nat.le_refl (tbl i))]

/-- Strictly-inside values take the interpolation branch with the bracketing
pair `(i, i+1)`. -/
theorem adcLookup_interp (val i : Nat) (hi : i < 164) (h1 : tbl (i + 1) < val)
    (h2 : val < tbl i) :
    adcLookup val = (i + 1) * 10 - (val - tbl (i + 1)) * 10 / (tbl i - tbl (i + 1)) := by
  obtain ⟨hl, hr⟩ := bsearch_pair val i hi h1 (Nat.le_of_lt h2)
  simp only [adcLookup, hl, hr]
  rw [if_neg (by omega : ¬ val ≥ tbl i)]

/-- Exact-hit behavior of the table walk: away from the duplicated entry, a
filtered value equal to `rawAdc[i]` resolves to `i * 10`. -/
theorem adcLookup_exact_hits :
    ∀ i : Nat, i < 164 → i ≠ 162 → adcLookup (tbl i) = i * 10 :=
  fun i hi hne => adcLookup_exact i hi (tbl_adj_strict i hi hne)

/-- C1: the code violates the claimed bound.  For filtered value `0` (the
accumulator right after `initADC`, and likewise any filtered value below
`rawAdc[164] = 46`), the binary search of `getTemperature` ends with
`leftBound = 164`, `rightBound = 165`, the exact-hit test
`val >= rawAdc[leftBound]` fails, and the interpolation branch reads
`rawAdc[165]` — one past the end of the 165-entry table — instead of the
claimed in-bounds extrapolation. -/
theorem getTemperature_reads_past_table :
    (bsearch 0).1 = 164 ∧ (bsearch 0).2 = 165 ∧ interpIndices 0 = [164, 165] ∧
    ADC_RAW_TABLE_SIZE = 165 := by
  have e : bsearch 0 = bsearchAux 165 0 0 165 := rfl
  obtain ⟨hp, hl0, hr, hA, hB⟩ := bsearchAux_bracket 165 0 0 165 (by omega) (by omega)
    (by omega) (Or.inl rfl) (Or.inr rfl)
  have h2 : (bsearch 0).2 = 165 := by
    rw [e]
    rcases hB with hv | hv
    · omega
    · exact hv
  have h1 : (bsearch 0).1 = 164 := by
    rw [e] at h2 ⊢
    omega
  refine ⟨h1, h2, ?_, rfl⟩
  have h46 : tbl 164 = 46 := rfl
  simp only [interpIndices, h1, h2, h46]
  norm_num

/-- C3 counterexample: at index 162 the duplicated entry makes the binary
search settle on `leftBound = 163`, so a filtered value of
`rawAdc[162] = 47` yields `-520 + 10*163`, not `-520 + 10*162`. -/
theorem temperature_not_exact_at_162 :
    tbl 162 = 47 ∧ getTemperature (16 * 47) 0 = -520 + 10 * 163 ∧
    ¬ getTemperature (16 * 47) 0 = -520 + 10 * 162 := by
  have h162 : tbl 162 = 47 := rfl
  have h163 : tbl 163 = 47 := rfl
  have h164 : tbl 164 = 46 := rfl
  have hx : adcLookup 47 = 163 * 10 := by
    have h := adcLookup_exact 163 (by omega) (by rw [h163, h164]; omega)
    rwa [h163] at h
  have hval : (16 * 47 / 2 ^ ADC_AVERAGING_BITS) % 65536 = 47 := by norm_num
  refine ⟨h162, ?_, ?_⟩ <;>
    · simp only [getTemperature, ADC_RAW_TABLE_BASE_TEMP, hval, hx]
      norm_num

/-- C3 (amended): for every table index `i` in `[0, 163]` except `i = 162`,
a filtered value (`averaged >> 4`, truncated to 16 bits) exactly equal to
`rawAdc[i]` makes `getTemperature` return exactly
`-520 + 10*i + correction`, with no interpolation. -/
theorem temperature_exact_at_table_entries :
    ∀ (corr : Int) (averaged i : Nat), i < 164 → i ≠ 162 →
      (averaged / 2 ^ ADC_AVERAGING_BITS) % 65536 = tbl i →
      getTemperature averaged corr = -520 + 10 * (i : Int) + corr := by
  intro corr averaged i hi hne hv
  simp only [getTemperature, ADC_RAW_TABLE_BASE_TEMP]
  rw [hv, adcLookup_exact_hits i hi hne]
  push_cast
  ring

/-- C3 witness: the amended theorem at `i = 0`, correction `7`. -/
theorem temperature_exact_witness :
    getTemperature (16 * 974) 7 = -520 + 10 * ((0 : Nat) : Int) + 7 :=
  temperature_exact_at_table_entries 7 (16 * 974) 0 (by decide) (by decide) (by decide)

/-- Interpolation bounds of the table walk, for every index and every value
strictly inside the bracket: the result is strictly above `i * 10` and at
most `(i+1) * 10` (the quotient of the truncating division is at most 9). -/
theorem adcLookup_interp_bounds :
    ∀ i : Nat, i < 164 → ∀ d : Nat, d < tbl i - tbl (i + 1) → 0 < d →
      i * 10 < adcLookup (tbl (i + 1) + d) ∧
      adcLookup (tbl (i + 1) + d) ≤ (i + 1) * 10 := by
  intro i hi d hd h0
  have hlt1 : tbl (i + 1) < tbl (i + 1) + d := by omega
  have hlt2 : tbl (i + 1) + d < tbl i := by omega
  rw [adcLookup_interp (tbl (i + 1) + d) i hi hlt1 hlt2]
  have hdd : tbl (i + 1) + d - tbl (i + 1) = d := by omega
  rw [hdd]
  obtain ⟨q, hqdef, hq⟩ : ∃ q, d * 10 / (tbl i - tbl (i + 1)) = q ∧ q < 10 :=
    ⟨_, rfl, (Nat.div_lt_iff_lt_mul (by omega)).mpr (by omega)⟩
  rw [hqdef]
  omega

/-- C4 counterexample: `rawAdc[43] = 675`, `rawAdc[44] = 664` (gap 11).  The
filtered value 665 lies strictly between them, yet
`(665 − 664) * 10 / 11 = 0`, so the result equals the upper bound
`-520 + 10*44` instead of lying strictly below it. -/
theorem interpolation_hits_upper_bound :
    tbl 44 < 665 ∧ 665 < tbl 43 ∧
    getTemperature (16 * 665) 0 - 0 = -520 + 10 * ((43 : Int) + 1) ∧
    ¬ getTemperature (16 * 665) 0 - 0 < -520 + 10 * ((43 : Int) + 1) := by
  have h44 : tbl 44 = 664 := rfl
  have h43 : tbl 43 = 675 := rfl
  have hint := adcLookup_interp 665 43 (by omega) (by rw [h44]; omega) (by rw [h43]; omega)
  rw [h43, h44] at hint
  have hx : adcLookup 665 = 440 := by
    rw [hint]
  have hval : (16 * 665 / 2 ^ ADC_AVERAGING_BITS) % 65536 = 665 := by norm_num
  refine ⟨by rw [h44]; omega, by rw [h43]; omega, ?_, ?_⟩ <;>
    · simp only [getTemperature, ADC_RAW_TABLE_BASE_TEMP, hval, hx]
      norm_num

/-- C4 (amended): for every table index `i` in `[0, 163]`, a filtered value
strictly between `rawAdc[i+1]` and `rawAdc[i]` makes
`getTemperature() - correction` lie strictly above `-520 + 10*i` and at
most `-520 + 10*(i+1)` (the upper bound is reached when the interpolation
quotient truncates to zero, the strict claim fails there). -/
theorem temperature_interpolation_bounds :
    ∀ (corr : Int) (averaged i : Nat), i < 164 →
      tbl (i + 1) < (averaged / 2 ^ ADC_AVERAGING_BITS) % 65536 →
      (averaged / 2 ^ ADC_AVERAGING_BITS) % 65536 < tbl i →
      -520 + 10 * (i : Int) < getTemperature averaged corr - corr ∧
      getTemperature averaged corr - corr ≤ -520 + 10 * ((i : Int) + 1) := by
  intro corr averaged i hi hlow hhigh
  have hfact := adcLookup_interp_bounds i hi
    ((averaged / 2 ^ ADC_AVERAGING_BITS) % 65536 - tbl (i + 1)) (by omega) (by omega)
  have hv : tbl (i + 1) + ((averaged / 2 ^ ADC_AVERAGING_BITS) % 65536 - tbl (i + 1)) =
      (averaged / 2 ^ ADC_AVERAGING_BITS) % 65536 := by omega
  rw [hv] at hfact
  obtain ⟨hl, hr⟩ := hfact
  simp only [getTemperature, ADC_RAW_TABLE_BASE_TEMP]
  constructor <;> omega

/-- C4 witness: the amended theorem at `i = 50`, filtered value 596 strictly
between `rawAdc[51] = 591` and `rawAdc[50] = 601`. -/
theorem temperature_interpolation_witness :
    -520 + 10 * ((50 : Nat) : Int) < getTemperature (16 * 596) 0 - 0 ∧
    getTemperature (16 * 596) 0 - 0 ≤ -520 + 10 * (((50 : Nat) : Int) + 1) :=
  temperature_interpolation_bounds 0 (16 * 596) 50 (by decide) (by decide) (by decide)

/-- Seeding the filter: from a zero accumulator the first sample `r` is
stored as `r << 4`. -/
theorem eocStep_seed (r : Nat) (h : r ≤ 1023) : eocStep 0 r = r * 16 := by
  simp only [eocStep, ADC_AVERAGING_BITS, U32, if_pos rfl]
  norm_num
  omega

/-- On a nonzero accumulator bounded by `16 * 1023`, the unsigned-long wrap
in `averaged += result - (averaged >> 4)` cancels out and the update is the
plain EMA step. -/
theorem eocStep_of_ne (acc r : Nat) (ha : acc ≤ 16368) (hr : r ≤ 1023) (h0 : acc ≠ 0) :
    eocStep acc r = acc + r - acc / 16 := by
  simp only [eocStep, ADC_AVERAGING_BITS, U32, if_neg h0]
  norm_num
  omega

/-- A steady stream of the same sample is a fixed point of the filter. -/
theorem eocStep_fix (r : Nat) (h : r ≤ 1023) : eocStep (r * 16) r = r * 16 := by
  rcases Nat.eq_zero_or_pos r with h0 | h0
  · subst h0
    simp [eocStep]
  · have hne : r * 16 ≠ 0 := by omega
    rw [eocStep_of_ne (r * 16) r (by omega) h hne]
    omega

/-- Feeding `n` identical samples after the seed leaves the accumulator at
the seed value. -/
theorem eocStep_replicate (r : Nat) (h : r ≤ 1023) :
    ∀ n : Nat, (List.replicate n r).foldl eocStep (r * 16) = r * 16 := by
  intro n
  induction n with
  | zero => rfl
  | succ n ih => simp only [List.replicate_succ, List.foldl_cons, eocStep_fix r h, ih]

/-- C5: after `initADC` (accumulator 0), the first conversion-complete event
with raw sample `r` makes `getAdcAveraged()` return exactly `r` (the seed
`r << 4` is not blended), and after any number `n` of further identical
samples `r` the filtered value is still exactly `r` — a constant sequence,
hence trivially monotone convergence toward `r`. -/
theorem filter_seed_and_convergence :
    ∀ (r n : Nat), r ≤ 1023 →
      getAdcAveraged (eocStep 0 r) = r ∧
      getAdcAveraged ((List.replicate n r).foldl eocStep (eocStep 0 r)) = r := by
  intro r n h
  rw [eocStep_seed r h, eocStep_replicate r h n]
  constructor <;>
    · simp only [getAdcAveraged, ADC_AVERAGING_BITS]
      norm_num
      omega

/-- C5 witness: the theorem at `r = 500`, `n = 3`. -/
theorem filter_seed_witness :
    getAdcAveraged (eocStep 0 500) = 500 ∧
    getAdcAveraged ((List.replicate 3 500).foldl eocStep (eocStep 0 500)) = 500 :=
  filter_seed_and_convergence 500 3 (by decide)

/-- The inductive EMA invariant: starting from an accumulator that is bounded
by `16 * 1023` and whose filtered value (when nonzero) lies in `[lo, hi]`,
folding samples from `[lo, hi] ∩ [0, 1023]` keeps all of that, and the
accumulator can only be zero if it started zero and every sample was zero. -/
theorem eoc_foldl_invariant :
    ∀ (xs : List Nat) (acc lo hi : Nat),
      (∀ x ∈ xs, x ≤ 1023 ∧ lo ≤ x ∧ x ≤ hi) →
      acc ≤ 16368 →
      (acc ≠ 0 → lo ≤ acc / 16 ∧ acc / 16 ≤ hi) →
      xs.foldl eocStep acc ≤ 16368 ∧
      (xs.foldl eocStep acc ≠ 0 →
        lo ≤ xs.foldl eocStep acc / 16 ∧ xs.foldl eocStep acc / 16 ≤ hi) ∧
      (xs.foldl eocStep acc = 0 → acc = 0 ∧ ∀ x ∈ xs, x = 0) := by
  intro xs
  induction xs with
  | nil =>
    intro acc lo hi _ h2 h3
    exact ⟨h2, h3, fun h => ⟨h, by simp⟩⟩
  | cons r rest ih =>
    intro acc lo hi h1 h2 h3
    obtain ⟨hr1, hr2, hr3⟩ := h1 r (by simp)
    have hstep : eocStep acc r ≤ 16368 ∧
        (eocStep acc r ≠ 0 → lo ≤ eocStep acc r / 16 ∧ eocStep acc r / 16 ≤ hi) ∧
        (eocStep acc r = 0 → acc = 0 ∧ r = 0) := by
      by_cases h0 : acc = 0
      · subst h0
        rw [eocStep_seed r hr1]
        refine ⟨by omega, fun hz => ?_, fun hz => ⟨rfl, by omega⟩⟩
        constructor <;> omega
      · have hb := h3 h0
        rw [eocStep_of_ne acc r h2 hr1 h0]
        refine ⟨by omega, fun hz => ?_, fun hz => absurd hz (by omega)⟩
        constructor <;> omega
    have hrest := ih (eocStep acc r) lo hi (fun x hx => h1 x (by simp [hx]))
      hstep.1 hstep.2.1
    simp only [List.foldl_cons]
    refine ⟨hrest.1, hrest.2.1, fun hz => ?_⟩
    obtain ⟨hacc, hall⟩ := hrest.2.2 hz
    obtain ⟨h0, hr0⟩ := hstep.2.2 hacc
    refine ⟨h0, fun x hx => ?_⟩
    rcases List.mem_cons.mp hx with h | h
    · exact h ▸ hr0
    · exact hall x h

/-- C6: for every nonempty sequence of raw samples (each 10-bit) fed after
`initADC`, the value `accumulator >> 4` returned by `getAdcAveraged` lies
within the closed range of the samples observed so far: it is at least every
common lower bound and at most every common upper bound of the sequence. -/
theorem filtered_within_sample_range :
    ∀ (xs : List Nat) (lo hi : Nat), xs ≠ [] →
      (∀ x ∈ xs, x ≤ 1023) → (∀ x ∈ xs, lo ≤ x) → (∀ x ∈ xs, x ≤ hi) →
      lo ≤ getAdcAveraged (xs.foldl eocStep 0) ∧
      getAdcAveraged (xs.foldl eocStep 0) ≤ hi := by
  intro xs lo hi hne hb hlo hhi
  have hinv := eoc_foldl_invariant xs 0 lo hi
    (fun x hx => ⟨hb x hx, hlo x hx, hhi x hx⟩) (by omega) (by omega)
  obtain ⟨hbound, hnz, hz⟩ := hinv
  simp only [getAdcAveraged, ADC_AVERAGING_BITS]
  norm_num
  by_cases h0 : xs.foldl eocStep 0 = 0
  · obtain ⟨-, hall⟩ := hz h0
    obtain ⟨x, hx⟩ := List.exists_mem_of_ne_nil xs hne
    have hx0 := hall x hx
    have := hlo x hx
    have := hhi x hx
    omega
  · have := hnz h0
    omega

/-- C6 witness: the theorem on the sample list `[5, 10]` with bounds 5, 10. -/
theorem filtered_within_range_witness :
    5 ≤ getAdcAveraged ([5, 10].foldl eocStep 0) ∧
    getAdcAveraged ([5, 10].foldl eocStep 0) ≤ 10 :=
  filtered_within_sample_range [5, 10] 5 10 (by decide) (by decide) (by decide) (by decide)

/-! ## Theorems about the interaction state machine -/

/-- The SELECT_PARAM auto-repeat block touches neither state variable. -/
theorem selectAutoInc_proj (env : Env) (s : MState) :
    (selectAutoInc env s).menuState = s.menuState ∧
    (selectAutoInc env s).menuDisplay = s.menuDisplay := by
  unfold selectAutoInc
  split_ifs <;> exact ⟨rfl, rfl⟩

/-- The CHANGE_PARAM auto-repeat block touches neither state variable. -/
theorem changeAutoInc_proj (env : Env) (s : MState) :
    (changeAutoInc env s).menuState = s.menuState ∧
    (changeAutoInc env s).menuDisplay = s.menuDisplay := by
  unfold changeAutoInc
  split_ifs <;> exact ⟨rfl, rfl⟩

/-- The SET_TIMER auto-repeat block touches neither state variable. -/
theorem setTimerAutoInc_proj (env : Env) (s : MState) :
    (setTimerAutoInc env s).menuState = s.menuState ∧
    (setTimerAutoInc env s).menuDisplay = s.menuDisplay := by
  unfold setTimerAutoInc
  split_ifs <;> exact ⟨rfl, rfl⟩

/-- The ROOT block only ever writes defined menu states. -/
theorem feedRoot_bounded (env : Env) (event : Nat) (s : MState)
    (h : menuStatesBounded s) : menuStatesBounded (feedRoot env event s) := by
  unfold menuStatesBounded at h ⊢
  simp only [feedRoot]
  split_ifs <;> simp_all

/-- The SELECT_PARAM block only ever writes defined menu states. -/
theorem feedSelect_bounded (env : Env) (event : Nat) (s : MState)
    (h : menuStatesBounded s) : menuStatesBounded (feedSelect env event s) := by
  have hp := selectAutoInc_proj env s
  unfold menuStatesBounded at h ⊢
  simp only [feedSelect]
  split_ifs <;> simp_all [hp.1, hp.2]

/-- The CHANGE_PARAM block only ever writes defined menu states. -/
theorem feedChange_bounded (env : Env) (event : Nat) (s : MState)
    (h : menuStatesBounded s) : menuStatesBounded (feedChange env event s) := by
  have hp := changeAutoInc_proj env s
  unfold menuStatesBounded at h ⊢
  simp only [feedChange]
  split_ifs <;> simp_all [hp.1, hp.2]

/-- The SET_TIMER block only ever writes defined menu states. -/
theorem feedSetTimer_bounded (env : Env) (event : Nat) (s : MState)
    (h : menuStatesBounded s) : menuStatesBounded (feedSetTimer env event s) := by
  have hp := setTimerAutoInc_proj env s
  unfold menuStatesBounded at h ⊢
  simp only [feedSetTimer]
  split_ifs <;> simp_all [hp.1, hp.2]

/-- One `feedMenu` call preserves boundedness of both state variables. -/
theorem feedMenu_bounded (env : Env) (event : Nat) (s : MState)
    (h : menuStatesBounded s) : menuStatesBounded (feedMenu env event s) := by
  unfold feedMenu
  split_ifs
  · exact feedRoot_bounded env event s h
  · exact feedSelect_bounded env event s h
  · exact feedChange_bounded env event s h
  · exact feedSetTimer_bounded env event s h
  · exact h

/-- C10: after `initMenu`, every interleaving of `feedMenu` calls (any event
byte, including undefined ones, and any collaborator responses) and
`refreshMenu` ticks leaves both `menuState` and `menuDisplay` equal to one
of the four defined menu states, so the defensive unknown-state branch of
the caller in src/ym.c can never be triggered by the state machine. -/
theorem menu_states_bounded : ∀ s : MState, Reach s → menuStatesBounded s := by
  intro s h
  induction h with
  | init s => exact ⟨Or.inl rfl, Or.inl rfl⟩
  | feed env event s _ ih => exact feedMenu_bounded env event s ih
  | tick env s _ ih =>
    unfold refreshMenu
    apply feedMenu_bounded
    unfold menuStatesBounded at ih ⊢
    simpa using ih

/-- C10 witness: the theorem at the concrete reachable state obtained by one
undefined event byte after `initMenu`. -/
theorem menu_states_bounded_witness :
    menuStatesBounded (feedMenu envHold1 200 (initMenu mstate0)) :=
  menu_states_bounded _ (Reach.feed envHold1 200 _ (Reach.init mstate0))

/-- The ROOT block preserves the state/display coupling. -/
theorem feedRoot_displayOK (env : Env) (event : Nat) (s : MState)
    (hs : s.menuState = MENU_ROOT) (h : stateDisplayOK s) :
    stateDisplayOK (feedRoot env event s) := by
  have hd : s.menuDisplay = MENU_ROOT ∨ s.menuDisplay = MENU_SET_TIMER := by
    rcases h with h | h | h
    · left
      rw [h] at hs
      exact hs
    · exact Or.inr h.2
    · exact absurd (h.1.symm.trans hs) (by decide)
  unfold stateDisplayOK
  simp only [feedRoot]
  split_ifs <;> rcases hd with hd | hd <;> simp_all

/-- The SELECT_PARAM block preserves the state/display coupling. -/
theorem feedSelect_displayOK (env : Env) (event : Nat) (s : MState)
    (hs : s.menuState = MENU_SELECT_PARAM) (h : stateDisplayOK s) :
    stateDisplayOK (feedSelect env event s) := by
  have hd : s.menuDisplay = MENU_SELECT_PARAM := by
    rcases h with h | h | h
    · rw [h] at hs
      exact hs
    · exact absurd (h.1.symm.trans hs) (by decide)
    · exact absurd (h.1.symm.trans hs) (by decide)
  have hp := selectAutoInc_proj env s
  unfold stateDisplayOK
  simp only [feedSelect]
  split_ifs <;> simp_all [hp.1, hp.2]

/-- The CHANGE_PARAM block preserves the state/display coupling. -/
theorem feedChange_displayOK (env : Env) (event : Nat) (s : MState)
    (hs : s.menuState = MENU_CHANGE_PARAM) (h : stateDisplayOK s) :
    stateDisplayOK (feedChange env event s) := by
  have hd : s.menuDisplay = MENU_CHANGE_PARAM := by
    rcases h with h | h | h
    · rw [h] at hs
      exact hs
    · exact absurd (h.1.symm.trans hs) (by decide)
    · exact absurd (h.1.symm.trans hs) (by decide)
  have hp := changeAutoInc_proj env s
  unfold stateDisplayOK
  simp only [feedChange]
  split_ifs <;> simp_all [hp.1, hp.2]

/-- The SET_TIMER block preserves the state/display coupling. -/
theorem feedSetTimer_displayOK (env : Env) (event : Nat) (s : MState)
    (hs : s.menuState = MENU_SET_TIMER) (h : stateDisplayOK s) :
    stateDisplayOK (feedSetTimer env event s) := by
  have hd : s.menuDisplay = MENU_SET_TIMER ∨ s.menuDisplay = MENU_ROOT := by
    rcases h with h | h | h
    · left
      rw [h] at hs
      exact hs
    · exact absurd (h.1.symm.trans hs) (by decide)
    · exact Or.inr h.2
  have hp := setTimerAutoInc_proj env s
  unfold stateDisplayOK
  simp only [feedSetTimer]
  split_ifs <;> rcases hd with hd | hd <;> simp_all [hp.1, hp.2]

/-- One `feedMenu` call preserves the state/display coupling. -/
theorem feedMenu_displayOK (env : Env) (event : Nat) (s : MState)
    (h : stateDisplayOK s) : stateDisplayOK (feedMenu env event s) := by
  unfold feedMenu
  split_ifs with h1 h2 h3 h4
  · exact feedRoot_displayOK env event s h1 h
  · exact feedSelect_displayOK env event s h2 h
  · exact feedChange_displayOK env event s h3 h
  · exact feedSetTimer_displayOK env event s h4 h
  · exact h

/-- C9: in every state reachable from `initMenu` through the module
interface, `menuState` equals `menuDisplay`, except that `menuState` may be
ROOT while `menuDisplay` is SET_TIMER (the ROOT preview) or `menuState` may
be SET_TIMER while `menuDisplay` is ROOT; no other divergent pair occurs. -/
theorem menu_state_display_coupled : ∀ s : MState, Reach s → stateDisplayOK s := by
  intro s h
  induction h with
  | init s => exact Or.inl rfl
  | feed env event s _ ih => exact feedMenu_displayOK env event s ih
  | tick env s _ ih =>
    unfold refreshMenu
    apply feedMenu_displayOK
    unfold stateDisplayOK at ih ⊢
    simpa using ih

/-- C9 witness: the theorem at the concrete reachable state after the ROOT
preview push (where the allowed divergent pair ROOT/SET_TIMER occurs). -/
theorem menu_state_display_coupled_witness :
    stateDisplayOK (feedMenu envHold1 MENU_EVENT_PUSH_BUTTON1 (initMenu mstate0)) :=
  menu_state_display_coupled _
    (Reach.feed envHold1 MENU_EVENT_PUSH_BUTTON1 _ (Reach.init mstate0))

/-- One `refreshMenu` tick in ROOT with button 1 held and the incremented
timer still at most the 3-second threshold: nothing happens besides the
timer advancing. -/
theorem root_hold1_tick (s : MState) (h1 : s.menuState = MENU_ROOT)
    (h2 : s.timer + 1 ≤ 96) :
    refreshMenu envHold1 s = { s with timer := s.timer + 1 } := by
  have hmod : (s.timer + 1) % 65536 = s.timer + 1 := by omega
  have hno : ¬ 96 < s.timer + 1 := by omega
  simp only [refreshMenu, feedMenu, feedRoot, h1, hmod, MENU_ROOT, MENU_SELECT_PARAM,
    MENU_CHANGE_PARAM, MENU_SET_TIMER, MENU_EVENT_PUSH_BUTTON1, MENU_EVENT_RELEASE_BUTTON1,
    MENU_EVENT_CHECK_TIMER, MENU_1_SEC_PASSED, MENU_3_SEC_PASSED, MENU_5_SEC_PASSED]
  norm_num [hno]

/-- The full C7 hold trajectory: through the first 96 ticks only the timer
counts up. -/
theorem root_hold1_trajectory : ∀ n : Nat, n ≤ 96 →
    (refreshMenu envHold1)^[n] c7pushed = { c7pushed with timer := n } := by
  intro n
  induction n with
  | zero => intro _; rfl
  | succ n ih =>
    intro h
    rw [Function.iterate_succ_apply', ih (by omega)]
    have hs : ({ c7pushed with timer := n } : MState).menuState = MENU_ROOT := rfl
    have hb : ({ c7pushed with timer := n } : MState).timer + 1 ≤ 96 := by
      show n + 1 ≤ 96
      exact h
    rw [root_hold1_tick _ hs hb]

/-- C7 counterexample: holding button 1 from fresh `initMenu` through the
PUSH_BUTTON1 edge (`c7pushed`) and then 96 `CHECK_TIMER` ticks does not
transition: the 96th tick sees `timer == 96`, the `timer > MENU_3_SEC_PASSED`
guard is still false, and the machine is still in ROOT (displaying the
SET_TIMER preview). -/
theorem root_hold96_no_transition :
    ((refreshMenu envHold1)^[96] c7pushed).menuState = MENU_ROOT ∧
    ((refreshMenu envHold1)^[96] c7pushed).menuState ≠ MENU_SELECT_PARAM ∧
    ((refreshMenu envHold1)^[96] c7pushed).menuDisplay ≠ MENU_SELECT_PARAM := by
  rw [root_hold1_trajectory 96 (by omega)]
  refine ⟨rfl, by decide, by decide⟩

/-- C7 (amended): in ROOT, a CHECK_TIMER event with `timer` above the
3-second threshold resets the timer and performs exactly one of: enter
parameter selection with param id 0 if button 1 is held; else toggle the
relay per the enabled/fermentation-timer rule if button 2 is held; else
toggle the fermentation timer (forcing the relay accordingly) if button 3
is held; else nothing further.  Holding button 1 with no release needs 97
CHECK_TIMER ticks — the first tick with `timer > 96` — to produce the
transition to SELECT_PARAM with param id 0 (96 ticks leave it in ROOT). -/
theorem root_checkTimer_and_hold97 :
    (∀ (env : Env) (s : MState), s.menuState = MENU_ROOT →
      MENU_3_SEC_PASSED < s.timer →
      (feedMenu env MENU_EVENT_CHECK_TIMER s).timer = 0 ∧
      (env.button1 = true →
        feedMenu env MENU_EVENT_CHECK_TIMER s =
          { s with timer := 0, paramId := 0, menuState := MENU_SELECT_PARAM,
                   menuDisplay := MENU_SELECT_PARAM }) ∧
      (env.button1 = false → env.button2 = true →
        feedMenu env MENU_EVENT_CHECK_TIMER s =
          { s with timer := 0, relayEnabled := !(s.relayEnabled && !s.fTimer) }) ∧
      (env.button1 = false → env.button2 = false → env.button3 = true →
        feedMenu env MENU_EVENT_CHECK_TIMER s =
          { s with timer := 0, fTimer := !s.fTimer, relayEnabled := !s.fTimer }) ∧
      (env.button1 = false → env.button2 = false → env.button3 = false →
        feedMenu env MENU_EVENT_CHECK_TIMER s = { s with timer := 0 })) ∧
    (((refreshMenu envHold1)^[97] c7pushed).menuState = MENU_SELECT_PARAM ∧
     ((refreshMenu envHold1)^[97] c7pushed).menuDisplay = MENU_SELECT_PARAM ∧
     ((refreshMenu envHold1)^[97] c7pushed).paramId = 0) := by
  constructor
  · intro env s hs ht
    have ht' : 96 < s.timer := ht
    simp only [feedMenu, feedRoot, hs, MENU_ROOT, MENU_SELECT_PARAM, MENU_CHANGE_PARAM,
      MENU_SET_TIMER, MENU_EVENT_PUSH_BUTTON1, MENU_EVENT_RELEASE_BUTTON1,
      MENU_EVENT_CHECK_TIMER, MENU_1_SEC_PASSED, MENU_3_SEC_PASSED, MENU_5_SEC_PASSED]
    norm_num [ht']
    refine ⟨?_, ?_, ?_, ?_, ?_⟩
    · split_ifs <;> rfl
    · intro h1
      simp [h1]
    · intro h1 h2
      rcases hb : s.relayEnabled <;> rcases hf : s.fTimer <;> simp [h1, h2, hb, hf]
    · intro h1 h2 h3
      rcases hf : s.fTimer <;> simp [h1, h2, h3, hf]
    · intro h1 h2 h3
      simp [h1, h2, h3]
  · have e : (refreshMenu envHold1)^[97] c7pushed =
        refreshMenu envHold1 ((refreshMenu envHold1)^[96] c7pushed) := by
      rw [show (97 : Nat) = 1 + 96 from rfl, Function.iterate_add_apply,
        Function.iterate_one]
    rw [e, root_hold1_trajectory 96 (by omega)]
    refine ⟨by decide, by decide, by decide⟩

/-- C7 witness: the general part of the theorem applied in ROOT with
`timer = 100 > 96` and button 1 held. -/
theorem root_checkTimer_witness :
    (feedMenu envHold1 MENU_EVENT_CHECK_TIMER { mstate0 with timer := 100 }).timer = 0 ∧
    feedMenu envHold1 MENU_EVENT_CHECK_TIMER { mstate0 with timer := 100 } =
      { mstate0 with timer := 0, paramId := 0, menuState := MENU_SELECT_PARAM,
                     menuDisplay := MENU_SELECT_PARAM } := by
  have h := root_checkTimer_and_hold97.1 envHold1 { mstate0 with timer := 100 }
    rfl (by decide)
  exact ⟨h.1, h.2.1 rfl⟩

/-- One `refreshMenu` tick in SET_TIMER with button 2 held (and the timer
below the timeout region): if the incremented timer exceeds
`1s + autoinc delay = 36` the fermentation parameter is selected and
incremented and the timer re-arms to 32, otherwise only the timer advances;
the blink flag is forced off either way. -/
theorem setTimer_hold2_tick (s : MState) (h1 : s.menuState = MENU_SET_TIMER)
    (h2 : s.timer ≤ 36) :
    (refreshMenu envHold2 s).menuState = MENU_SET_TIMER ∧
    (refreshMenu envHold2 s).timer = (if s.timer = 36 then 32 else s.timer + 1) ∧
    (refreshMenu envHold2 s).params PARAM_FERMENTATION_TIME =
      (if s.timer = 36 then s.params PARAM_FERMENTATION_TIME + 1
       else s.params PARAM_FERMENTATION_TIME) := by
  by_cases hc : s.timer = 36
  · simp only [if_pos hc]
    simp only [refreshMenu, feedMenu, feedSetTimer, setTimerAutoInc, updParam, h1, hc,
      envHold2, MENU_ROOT, MENU_SELECT_PARAM, MENU_CHANGE_PARAM, MENU_SET_TIMER,
      MENU_EVENT_PUSH_BUTTON1, MENU_EVENT_RELEASE_BUTTON1, MENU_EVENT_PUSH_BUTTON2,
      MENU_EVENT_RELEASE_BUTTON2, MENU_EVENT_PUSH_BUTTON3, MENU_EVENT_RELEASE_BUTTON3,
      MENU_EVENT_CHECK_TIMER, MENU_1_SEC_PASSED, MENU_AUTOINC_DELAY, MENU_5_SEC_PASSED,
      PARAM_FERMENTATION_TIME]
    norm_num
    simp [updParam]
  · simp only [if_neg hc]
    have hmod : (s.timer + 1) % 65536 = s.timer + 1 := by omega
    have hno : ¬ 36 < s.timer + 1 := by omega
    have hno2 : ¬ 160 < s.timer + 1 := by omega
    simp only [refreshMenu, feedMenu, feedSetTimer, setTimerAutoInc, h1, hmod, envHold2,
      MENU_ROOT, MENU_SELECT_PARAM, MENU_CHANGE_PARAM, MENU_SET_TIMER,
      MENU_EVENT_PUSH_BUTTON1, MENU_EVENT_RELEASE_BUTTON1, MENU_EVENT_PUSH_BUTTON2,
      MENU_EVENT_RELEASE_BUTTON2, MENU_EVENT_PUSH_BUTTON3, MENU_EVENT_RELEASE_BUTTON3,
      MENU_EVENT_CHECK_TIMER, MENU_1_SEC_PASSED, MENU_AUTOINC_DELAY, MENU_5_SEC_PASSED]
    norm_num [hno, hno2]

/-- The full trajectory of the C8 scenario: state stays SET_TIMER, the timer
follows `n` up to 36 then cycles `32..36`, and the fermentation parameter
counts `1` plus one increment per completed cycle: first at tick 37, then
every 5 ticks. -/
theorem setTimer_hold2_trajectory : ∀ n : Nat,
    ((refreshMenu envHold2)^[n] c8pushed).menuState = MENU_SET_TIMER ∧
    ((refreshMenu envHold2)^[n] c8pushed).timer =
      (if n < 37 then n else 32 + (n - 32) % 5) ∧
    ((refreshMenu envHold2)^[n] c8pushed).params PARAM_FERMENTATION_TIME =
      1 + ((if n < 37 then 0 else (n - 32) / 5 : Nat) : Int) := by
  intro n
  induction n with
  | zero => exact ⟨rfl, rfl, by decide⟩
  | succ n ih =>
    rw [Function.iterate_succ_apply']
    set X := (refreshMenu envHold2)^[n] c8pushed with hX
    obtain ⟨h1, h2, h3⟩ := ih
    have hle : X.timer ≤ 36 := by
      rw [h2]
      split_ifs <;> omega
    obtain ⟨t1, t2, t3⟩ := setTimer_hold2_tick X h1 hle
    by_cases hc : X.timer = 36
    · have hn : n = 36 ∨ (37 ≤ n ∧ (n - 32) % 5 = 4) := by
        rw [h2] at hc
        split_ifs at hc <;> omega
      have hng : ¬ n + 1 < 37 := by
        rcases hn with hn | hn <;> omega
      refine ⟨t1, ?_, ?_⟩
      · rw [t2, if_pos hc, if_neg hng]
        rcases hn with hn | ⟨hn1, hn2⟩ <;> omega
      · rw [t3, if_pos hc, h3, if_neg hng]
        rcases hn with hn | ⟨hn1, hn2⟩
        · subst hn
          norm_num
        · rw [if_neg (by omega : ¬ n < 37)]
          have hdiv : (n + 1 - 32) / 5 = (n - 32) / 5 + 1 := by omega
          rw [hdiv]
          omega
    · have hn : n + 1 < 37 ∨ (37 ≤ n ∧ (n - 32) % 5 < 4) := by
        rw [h2] at hc
        split_ifs at hc <;> omega
      refine ⟨t1, ?_, ?_⟩
      · rw [t2, if_neg hc, h2]
        rcases hn with hn | ⟨hn1, hn2⟩
        · rw [if_pos (by omega : n < 37), if_pos hn]
        · rw [if_neg (by omega : ¬ n < 37), if_neg (by omega : ¬ n + 1 < 37)]
          omega
      · rw [t3, if_neg hc, h3]
        rcases hn with hn | ⟨hn1, hn2⟩
        · rw [if_pos (by omega : n < 37), if_pos hn]
        · rw [if_neg (by omega : ¬ n < 37), if_neg (by omega : ¬ n + 1 < 37)]
          have hdiv : (n + 1 - 32) / 5 = (n - 32) / 5 := by omega
          rw [hdiv]

/-- C8 counterexample: with button 2 held in SET_TIMER, the parameter is
still at 1 after 36 ticks (no increment at the claimed 32-tick mark), jumps
to 2 at tick 37, and is already 3 at tick 42 — increments every 5 ticks,
not every 32. -/
theorem setTimer_autorepeat_not_32 :
    c8pushed.params PARAM_FERMENTATION_TIME = 1 ∧
    ((refreshMenu envHold2)^[36] c8pushed).params PARAM_FERMENTATION_TIME = 1 ∧
    ((refreshMenu envHold2)^[37] c8pushed).params PARAM_FERMENTATION_TIME = 2 ∧
    ((refreshMenu envHold2)^[42] c8pushed).params PARAM_FERMENTATION_TIME = 3 := by
  have h0 := (setTimer_hold2_trajectory 0).2.2
  rw [Function.iterate_zero_apply] at h0
  exact ⟨h0.trans (by norm_num), (setTimer_hold2_trajectory 36).2.2.trans (by norm_num),
    (setTimer_hold2_trajectory 37).2.2.trans (by norm_num),
    (setTimer_hold2_trajectory 42).2.2.trans (by norm_num)⟩

/-- C8 (amended): starting in SET_TIMER with button 2 held continuously,
PUSH_BUTTON2 increments the fermentation-time parameter once immediately;
the auto-repeat then fires first on the 37th subsequent CHECK_TIMER tick
(the first with `timer > 1s + autoinc delay = 36`) and thereafter exactly
once every 5 ticks (the timer re-arms to 32), not on every tick. -/
theorem setTimer_autorepeat_cadence : ∀ n : Nat,
    ((refreshMenu envHold2)^[n] c8pushed).params PARAM_FERMENTATION_TIME =
      1 + ((if n < 37 then 0 else (n - 32) / 5 : Nat) : Int) :=
  fun n => (setTimer_hold2_trajectory n).2.2

end YogurtMKR
